import Mathlib

/-!
Shallow embedding of `py2smt/PythonToSMTConverter.py`.

Python strings are modelled as Lean `String`s (for the AST-to-text
converter) and as `List Char` (for the textual comment stripper, whose
claims need list induction).  The Python AST (`ast` module) node classes
that the converter inspects are modelled by the inductive type `Node`;
operator classes (`ast.Add`, `ast.NotEq`, ...) are themselves AST nodes
in Python, so they are constructors of `Node` here as well, and
`typeName` plays the role of `type(node).__name__`.

`convert` returns `Option String`: `some s` models the Python method
returning the string `s`, while `none` models the one control path that
falls off the end of the method body (Python's implicit `None`) — the
`ast.UnaryOp` branch with an operator other than `Not`/`USub` — as well
as the `TypeError` that such a `None` would raise inside a `str.join`
at a recursive call site.
-/

/-- Values carried by `ast.NameConstant` nodes: the parses of the Python
literals `True`, `False` and `None`. -/
inductive PyConst where
  | pyTrue
  | pyFalse
  | pyNone
deriving DecidableEq, Repr

/-- Python's `str.lower()` as used on identifiers: character-wise case
mapping (for the ASCII identifiers at issue, `A`–`Z` to `a`–`z`, which
is what `Char.toLower` performs). -/
def pyLower (s : String) : String := String.mk (s.data.map Char.toLower)

/-- Python `str(value)` on a `NameConstant`'s value. -/
def PyConst.str : PyConst → String
  | .pyTrue => "True"
  | .pyFalse => "False"
  | .pyNone => "None"

/-- The Python AST nodes the converter dispatches on.  Fields mirror the
`ast` classes: `functionDef` keeps the parameter names (`arg.arg`) as
strings, `ret` models `ast.Return` whose `value` may be absent (`none`),
and `other` stands for any AST class that has no constructor here
(e.g. `ast.While`), carrying its Python class name. -/
inductive Node where
  | module (body : List Node)
  | functionDef (name : String) (args : List String) (body : List Node)
  | assign (targets : List Node) (value : Node)
  | binOp (left : Node) (op : Node) (right : Node)
  | compare (left : Node) (ops : List Node) (comparators : List Node)
  | if_ (test : Node) (body : List Node) (orelse : List Node)
  | expr (value : Node)
  | name (id : String)
  | nameConstant (value : PyConst)
  | num (n : Int)
  | str (s : String)
  | add
  | sub
  | mult
  | div
  | mod
  | boolOp (op : Node) (values : List Node)
  | unaryOp (op : Node) (operand : Node)
  | andOp
  | orOp
  | notOp
  | uSub
  | uAdd
  | invert
  | eq
  | notEq
  | lt
  | ltE
  | gt
  | gtE
  | ret (value : Option Node)
  | other (kindName : String)

/-- `type(node).__name__`: the Python class name of each node kind. -/
def Node.typeName : Node → String
  | .module _ => "Module"
  | .functionDef _ _ _ => "FunctionDef"
  | .assign _ _ => "Assign"
  | .binOp _ _ _ => "BinOp"
  | .compare _ _ _ => "Compare"
  | .if_ _ _ _ => "If"
  | .expr _ => "Expr"
  | .name _ => "Name"
  | .nameConstant _ => "NameConstant"
  | .num _ => "Num"
  | .str _ => "Str"
  | .add => "Add"
  | .sub => "Sub"
  | .mult => "Mult"
  | .div => "Div"
  | .mod => "Mod"
  | .boolOp _ _ => "BoolOp"
  | .unaryOp _ _ => "UnaryOp"
  | .andOp => "And"
  | .orOp => "Or"
  | .notOp => "Not"
  | .uSub => "USub"
  | .uAdd => "UAdd"
  | .invert => "Invert"
  | .eq => "Eq"
  | .notEq => "NotEq"
  | .lt => "Lt"
  | .ltE => "LtE"
  | .gt => "Gt"
  | .gtE => "GtE"
  | .ret _ => "Return"
  | .other kindName => kindName

/-- `isinstance(op, ast.NotEq)` as used on `Compare.ops` elements. -/
def Node.isNotEq : Node → Bool
  | .notEq => true
  | _ => false

mutual

/-- `PythonToSMTConverter.convert`, with `return_type` the converter's
configured `self.return_type`.  Branches appear in the source's
`isinstance` order; node kinds with no `isinstance` branch fall to the
final `UNKNOWN_TYPE_...` return.  The `unaryOp` branch mirrors the
source's inner `if/elif` that has no `else`: any other operator falls
off the end of the method, producing Python `None` (`none` here). -/
def convert (return_type : String) : Node → Option String
  | .module body => do
      let parts ← convertList return_type body
      some (String.intercalate "\n" parts)
  | .functionDef name args body => do
      let argStrs := args.map (fun a => "(" ++ a ++ " " ++ return_type ++ ")")
      let argsJoined := String.intercalate " " argStrs
      let parts ← convertList return_type body
      let bodyJoined := String.intercalate "\n" parts
      some ("(define-fun " ++ name ++ " (" ++ argsJoined ++ ") " ++
            return_type ++ " " ++ bodyJoined ++ ")")
  | .assign targets value => do
      let targetStrs ← convertList return_type targets
      let targetsJoined := String.intercalate " " targetStrs
      let valueStr ← convert return_type value
      some ("(let " ++ targetsJoined ++ " " ++ valueStr ++ ")")
  | .binOp left op right => do
      let leftStr ← convert return_type left
      let opStr ← convert return_type op
      let rightStr ← convert return_type right
      some ("(" ++ opStr ++ " " ++ leftStr ++ " " ++ rightStr ++ ")")
  | .compare left ops comparators => do
      let leftStr ← convert return_type left
      let opStrs ← convertList return_type ops
      let opsJoined := String.intercalate " " opStrs
      let compStrs ← convertList return_type comparators
      let compsJoined := String.intercalate " " compStrs
      if ops.any Node.isNotEq then
        some ("(not (= " ++ leftStr ++ " " ++ compsJoined ++ "))")
      else
        some ("(" ++ opsJoined ++ " " ++ leftStr ++ " " ++ compsJoined ++ ")")
  | .if_ test body orelse => do
      let testStr ← convert return_type test
      let bodyParts ← convertList return_type body
      let bodyJoined := String.intercalate "\n" bodyParts
      let orelseParts ← convertList return_type orelse
      let orelseJoined := String.intercalate "\n" orelseParts
      some ("(ite " ++ testStr ++ " " ++ bodyJoined ++ " " ++ orelseJoined ++ ")")
  | .expr value => convert return_type value
  | .name id =>
      if pyLower id = "true" then some "true"
      else if pyLower id = "false" then some "false"
      else some id
  | .nameConstant value => some value.str
  | .num n => some (toString n)
  | .str s => some ("\"" ++ s ++ "\"")
  | .add => some "+"
  | .sub => some "-"
  | .mult => some "*"
  | .div => some "div"
  | .mod => some "mod"
  | .boolOp op values => do
      let opStr :=
        match op with
        | .andOp => "and"
        | .orOp => "or"
        | _ => "UNKNOWN_TYPE_BoolOp_" ++ op.typeName
      let valueStrs ← convertList return_type values
      let valuesJoined := String.intercalate " " valueStrs
      some ("(" ++ opStr ++ " " ++ valuesJoined ++ ")")
  | .unaryOp op operand =>
      match op with
      | .notOp => do
          let operandStr ← convert return_type operand
          some ("(not " ++ operandStr ++ ")")
      | .uSub => do
          let operandStr ← convert return_type operand
          some ("(- " ++ operandStr ++ ")")
      | _ => none
  | .eq => some "="
  | .lt => some "<"
  | .ltE => some "<="
  | .gt => some ">"
  | .gtE => some ">="
  | .ret value =>
      match value with
      | some v => convert return_type v
      | none => some "nil"
  | n => some ("UNKNOWN_TYPE_" ++ n.typeName)

/-- Converts the elements of a child list in order, the way the source's
generator expressions inside `' '.join(...)` / `'\n'.join(...)` do;
`none` propagates from any element. -/
def convertList (return_type : String) : List Node → Option (List String)
  | [] => some []
  | n :: rest => do
      let s ← convert return_type n
      let ss ← convertList return_type rest
      some (s :: ss)

end

/-- The `if node is None: return ''` guard at the top of `convert`: the
method's argument may be absent (`None`), in which case the empty string
is returned before any `isinstance` dispatch. -/
def convertOpt (return_type : String) : Option Node → Option String
  | none => some ""
  | some n => convert return_type n

/-! ### The comment stripper, `remove_comments`

Python strings are modelled as `List Char` here.  `splitOnChar`
models `str.split` on a single-character separator, `joinSep` models
`sep.join`, and `splitTripleGo` models `str.split` on the three-character
separator made of three double quotes. -/

/-- Worker for `splitOnChar`: scans the text, accumulating the current
piece in reverse, emitting a piece at each occurrence of `c`. -/
def splitOnCharGo (c : Char) (acc : List Char) : List Char → List (List Char)
  | [] => [acc.reverse]
  | x :: rest =>
      if x = c then acc.reverse :: splitOnCharGo c [] rest
      else splitOnCharGo c (x :: acc) rest

/-- Python `text.split(c)` for a one-character separator `c`: every
occurrence splits, empty pieces are kept. -/
def splitOnChar (c : Char) (l : List Char) : List (List Char) :=
  splitOnCharGo c [] l

/-- Python `sep.join(pieces)`. -/
def joinSep (sep : List Char) : List (List Char) → List Char
  | [] => []
  | [x] => x
  | x :: xs => x ++ sep ++ joinSep sep xs

/-- Python `text.split` on the separator made of three double-quote
characters: greedy left-to-right scan for non-overlapping occurrences. -/
def splitTripleGo (acc : List Char) : List Char → List (List Char)
  | [] => [acc.reverse]
  | x :: rest =>
      if x = '"' ∧ rest.take 2 = ['"', '"'] then
        acc.reverse :: splitTripleGo [] (rest.drop 2)
      else
        splitTripleGo (x :: acc) rest
termination_by l => l.length
decreasing_by
  · simp only [List.length_drop, List.length_cons]; omega
  · simp only [List.length_cons]; omega

/-- Whether the text contains three consecutive double-quote characters,
i.e. a triple-quote delimiter, as a contiguous substring. -/
def containsTriple : List Char → Bool
  | [] => false
  | x :: rest =>
      if x = '"' ∧ rest.take 2 = ['"', '"'] then true
      else containsTriple rest

/-- `PythonToSMTConverter.remove_comments`, line for line: split into
lines, keep each line's text before its first `#`
(`re.split(r'#', line, 1)[0]`), rejoin with newlines, split on the
triple-quote delimiter, keep only even-indexed pieces
(`code_lines[i] if i % 2 == 0 else ''`), and concatenate. -/
def remove_comments (py_code : List Char) : List Char :=
  let lines := splitOnChar '\n' py_code
  let lines_without_sharp_comments :=
    lines.map (fun line => line.takeWhile (fun ch => ch != '#'))
  let code_without_comments := joinSep ['\n'] lines_without_sharp_comments
  let code_lines := splitTripleGo [] code_without_comments
  let code_without_all_comments :=
    (List.range code_lines.length).map
      (fun i => if i % 2 = 0 then code_lines.getD i [] else [])
  code_without_all_comments.flatten

/-! ### Helper lemmas about the comment stripper -/

theorem takeWhile_eq_self_of_forall {p : Char → Bool} :
    ∀ {m : List Char}, (∀ ch ∈ m, p ch) → m.takeWhile p = m := by
  intro m h
  induction m with
  | nil => rfl
  | cons a t ih =>
      simp only [List.takeWhile_cons, h a (by simp), ih
        (fun ch hch => h ch (by simp [hch])), if_true]

theorem splitOnCharGo_ne_nil (c : Char) :
    ∀ (l acc : List Char), splitOnCharGo c acc l ≠ [] := by
  intro l
  induction l with
  | nil => intro acc; simp [splitOnCharGo]
  | cons x rest ih =>
      intro acc
      by_cases hx : x = c
      · simp [splitOnCharGo, hx]
      · simpa [splitOnCharGo, hx] using ih (x :: acc)

theorem joinSep_splitOnCharGo (c : Char) :
    ∀ (l acc : List Char),
      joinSep [c] (splitOnCharGo c acc l) = acc.reverse ++ l := by
  intro l
  induction l with
  | nil => intro acc; simp [splitOnCharGo, joinSep]
  | cons x rest ih =>
      intro acc
      by_cases hx : x = c
      · subst hx
        rw [splitOnCharGo, if_pos rfl]
        obtain ⟨h, t, heq⟩ := List.exists_cons_of_ne_nil (splitOnCharGo_ne_nil x rest [])
        rw [heq]
        have hstep : joinSep [x] (acc.reverse :: h :: t) =
            acc.reverse ++ [x] ++ joinSep [x] (h :: t) := rfl
        rw [hstep, ← heq, ih []]
        simp
      · rw [splitOnCharGo, if_neg hx, ih (x :: acc)]
        simp

theorem mem_of_mem_splitOnCharGo (c : Char) :
    ∀ (l acc p : List Char), p ∈ splitOnCharGo c acc l →
      ∀ ch ∈ p, ch ∈ acc ∨ ch ∈ l := by
  intro l
  induction l with
  | nil =>
      intro acc p hp ch hch
      simp [splitOnCharGo] at hp
      subst hp
      exact Or.inl (List.mem_reverse.mp hch)
  | cons x rest ih =>
      intro acc p hp ch hch
      by_cases hx : x = c
      · rw [splitOnCharGo, if_pos hx] at hp
        rcases List.mem_cons.mp hp with h1 | h2
        · subst h1; exact Or.inl (List.mem_reverse.mp hch)
        · rcases ih [] p h2 ch hch with h | h
          · simp at h
          · exact Or.inr (List.mem_cons_of_mem x h)
      · rw [splitOnCharGo, if_neg hx] at hp
        rcases ih (x :: acc) p hp ch hch with h | h
        · rcases List.mem_cons.mp h with h' | h'
          · exact Or.inr (h' ▸ List.mem_cons_self x rest)
          · exact Or.inl h'
        · exact Or.inr (List.mem_cons_of_mem x h)

theorem splitTripleGo_of_not_containsTriple :
    ∀ (l : List Char), containsTriple l = false →
      ∀ (acc : List Char), splitTripleGo acc l = [acc.reverse ++ l] := by
  intro l
  induction l with
  | nil => intro _ acc; simp [splitTripleGo]
  | cons x rest ih =>
      intro h acc
      by_cases hx : x = '"' ∧ rest.take 2 = ['"', '"']
      · rw [containsTriple, if_pos hx] at h
        exact absurd h (by simp)
      · rw [containsTriple, if_neg hx] at h
        rw [splitTripleGo, if_neg hx, ih h (x :: acc)]
        simp

theorem intercalate_nil (sep : String) : String.intercalate sep [] = "" := rfl

theorem intercalate_singleton (sep a : String) :
    String.intercalate sep [a] = a := by
  simp [String.intercalate, String.intercalate.go]

/-! ### The claims -/

/-- Claim C8 (confirmed): for every input text containing no `#`
character and no triple-quote delimiter, `remove_comments` returns the
input text unchanged — comment stripping is the identity on
already-clean input. -/
theorem remove_comments_clean (py_code : List Char)
    (h1 : '#' ∉ py_code)
    (h2 : containsTriple py_code = false) :
    remove_comments py_code = py_code := by
  have hmap : (splitOnChar '\n' py_code).map
      (fun line => line.takeWhile (fun ch => ch != '#')) =
      splitOnChar '\n' py_code := by
    have hcongr : ∀ line ∈ splitOnChar '\n' py_code,
        line.takeWhile (fun ch => ch != '#') = line := by
      intro line hline
      apply takeWhile_eq_self_of_forall
      intro ch hch
      rcases mem_of_mem_splitOnCharGo '\n' py_code [] line hline ch hch with h | h
      · simp at h
      · exact bne_iff_ne.mpr (fun heq => h1 (heq ▸ h))
    calc (splitOnChar '\n' py_code).map (fun line => line.takeWhile (fun ch => ch != '#'))
        = (splitOnChar '\n' py_code).map id := List.map_congr_left hcongr
      _ = splitOnChar '\n' py_code := List.map_id _
  have hjoin : joinSep ['\n'] (splitOnChar '\n' py_code) = py_code := by
    simpa [splitOnChar] using joinSep_splitOnCharGo '\n' py_code []
  have hsplit : splitTripleGo [] py_code = [py_code] := by
    simpa using splitTripleGo_of_not_containsTriple py_code h2 []
  simp only [remove_comments, hmap, hjoin, hsplit]
  simp [List.range_succ]

/-- Witness for C8 at a concrete clean program. -/
theorem remove_comments_clean_witness :
    remove_comments "def f(x):\n    return x".toList =
      "def f(x):\n    return x".toList :=
  remove_comments_clean _ (by decide) (by decide)

/-- Claim C1 (corrected), counterexample: on the chain
`a != b < c` (ops `[NotEq, Lt]`, comparators `[b, c]`) the code returns
`(not (= a b c))`, which joins BOTH comparators, not
`(not (= a b))` as the claim states. -/
theorem convert_compare_notEq_counterexample :
    convert "Int" (.compare (.name "a") [.notEq, .lt] [.name "b", .name "c"]) =
      some "(not (= a b c))" ∧
    ¬ convert "Int" (.compare (.name "a") [.notEq, .lt] [.name "b", .name "c"]) =
      some "(not (= a b))" := by decide

/-- Claim C1 (corrected), amended: for every `Compare` node whose ops
contain `NotEq`, `convert` returns `(not (= <left> <comparators>))`
where `<comparators>` is the space-join of the translations of ALL
comparators in order; the operators of the chain are ignored, but the
comparators beyond the first are not. -/
theorem convert_compare_notEq_amended (rt : String) (left : Node)
    (ops comparators : List Node) (ls : String) (opStrs compStrs : List String)
    (hl : convert rt left = some ls)
    (hops : convertList rt ops = some opStrs)
    (hcomps : convertList rt comparators = some compStrs)
    (hne : ops.any Node.isNotEq = true) :
    convert rt (.compare left ops comparators) =
      some ("(not (= " ++ ls ++ " " ++ String.intercalate " " compStrs ++ "))") := by
  simp [convert, hl, hops, hcomps, hne]

/-- Witness for the amended C1 on the chain `a != b < c`. -/
theorem convert_compare_notEq_amended_witness :
    convert "Int" (.compare (.name "a") [.notEq, .lt] [.name "b", .name "c"]) =
      some "(not (= a b c))" :=
  Eq.trans
    (convert_compare_notEq_amended "Int" (.name "a") [.notEq, .lt]
      [.name "b", .name "c"] "a" ["UNKNOWN_TYPE_NotEq", "<"] ["b", "c"]
      (by decide) (by decide) (by decide) (by decide))
    (by decide)

/-- Claim C2 (code_bug): for a `BoolOp` whose operator is outside
`And`/`Or` the code does return a string with a sentinel naming the
operator, but for a `UnaryOp` whose operator is outside `Not`/`Neg`
(`USub`) the inner `if/elif` has no `else`, so the method falls off its
end and returns Python `None` — not a string.  This theorem evaluates
the code at both kinds of input. -/
theorem convert_unknown_operator_divergence :
    convert "Int" (.boolOp (.other "Xor") [.name "x", .name "y"]) =
      some "(UNKNOWN_TYPE_BoolOp_Xor x y)" ∧
    convert "Int" (.unaryOp .uAdd (.name "x")) = none ∧
    convert "Int" (.unaryOp .invert (.name "x")) = none := by decide

/-- Claim C3 (confirmed): a `FunctionDef` with name `fname` and
parameters `params` translates to
`(define-fun fname ((p1 S) ... (pN S)) S <body>)` with exactly one
`(p S)` pair per parameter, in order, all typed with the configured
sort, and `<body>` the newline-join of the body translations. -/
theorem convert_functionDef_format (rt fname : String) (params : List String)
    (body : List Node) (bodyParts : List String)
    (hbody : convertList rt body = some bodyParts) :
    convert rt (.functionDef fname params body) =
      some ("(define-fun " ++ fname ++ " (" ++
        String.intercalate " " (params.map (fun p => "(" ++ p ++ " " ++ rt ++ ")")) ++
        ") " ++ rt ++ " " ++ String.intercalate "\n" bodyParts ++ ")") ∧
    (params.map (fun p => "(" ++ p ++ " " ++ rt ++ ")")).length = params.length := by
  constructor
  · simp [convert, hbody]
  · simp

/-- Witness for C3: a two-parameter function. -/
theorem convert_functionDef_format_witness :
    convert "Int" (.functionDef "f" ["x", "y"] [.ret (some (.name "x"))]) =
      some "(define-fun f ((x Int) (y Int)) Int x)" :=
  Eq.trans
    ((convert_functionDef_format "Int" "f" ["x", "y"]
      [.ret (some (.name "x"))] ["x"] (by decide)).1)
    (by decide)

/-- Claim C4 (confirmed): an `Assign` with a single `Name` target `t`
(an ordinary identifier, i.e. not a case-variant of `true`/`false`,
which the data model reserves for literals) and value `v` translates to
the flat textual fragment `(let t <v>)`. -/
theorem convert_assign_let_fragment (rt t : String) (v : Node) (vs : String)
    (hv : convert rt v = some vs)
    (ht : pyLower t ≠ "true") (hf : pyLower t ≠ "false") :
    convert rt (.assign [.name t] v) =
      some ("(let " ++ t ++ " " ++ vs ++ ")") := by
  simp [convert, convertList, hv, ht, hf, intercalate_singleton]

/-- Witness for C4, including the spec's end-to-end scenario: the body
`y = x + 1` / `return y` yields the newline-join of `(let y (+ x 1))`
and `y`. -/
theorem convert_assign_let_fragment_witness :
    convert "Int" (.assign [.name "y"] (.binOp (.name "x") .add (.num 1))) =
      some "(let y (+ x 1))" ∧
    convert "Int" (.functionDef "f" ["x"]
      [.assign [.name "y"] (.binOp (.name "x") .add (.num 1)),
       .ret (some (.name "y"))]) =
      some "(define-fun f ((x Int)) Int (let y (+ x 1))\ny)" :=
  ⟨Eq.trans
    (convert_assign_let_fragment "Int" "y" (.binOp (.name "x") .add (.num 1))
      "(+ x 1)" (by decide) (by decide) (by decide))
    (by decide),
   by decide⟩

/-- Claim C5 (confirmed): an `If` node translates to
`(ite <test> <body> <orelse>)` with `<body>` and `<orelse>` the
newline-joins of their statement sequences, and an empty `orelse`
leaves the empty string in the alternative position. -/
theorem convert_if_ite_format (rt : String) (test : Node) (body orelse : List Node)
    (ts : String) (bodyParts orelseParts : List String)
    (htest : convert rt test = some ts)
    (hbody : convertList rt body = some bodyParts)
    (horelse : convertList rt orelse = some orelseParts) :
    convert rt (.if_ test body orelse) =
      some ("(ite " ++ ts ++ " " ++ String.intercalate "\n" bodyParts ++ " " ++
            String.intercalate "\n" orelseParts ++ ")") ∧
    (orelse = [] →
      convert rt (.if_ test body orelse) =
        some ("(ite " ++ ts ++ " " ++ String.intercalate "\n" bodyParts ++
              " " ++ "" ++ ")")) := by
  constructor
  · simp [convert, htest, hbody, horelse]
  · intro he
    subst he
    have hnil : orelseParts = [] := by
      simpa [convertList] using horelse.symm
    subst hnil
    simp [convert, convertList, htest, hbody, intercalate_nil]

/-- Witness for C5: the spec's `if a > 0: return 1 else: return -1`
scenario, and the same conditional with an empty alternative. -/
theorem convert_if_ite_format_witness :
    convert "Int" (.if_ (.compare (.name "a") [.gt] [.num 0])
      [.ret (some (.num 1))] [.ret (some (.unaryOp .uSub (.num 1)))]) =
      some "(ite (> a 0) 1 (- 1))" ∧
    convert "Int" (.if_ (.compare (.name "a") [.gt] [.num 0])
      [.ret (some (.num 1))] []) =
      some "(ite (> a 0) 1 )" :=
  ⟨Eq.trans
    ((convert_if_ite_format "Int" (.compare (.name "a") [.gt] [.num 0])
      [.ret (some (.num 1))] [.ret (some (.unaryOp .uSub (.num 1)))]
      "(> a 0)" ["1"] ["(- 1)"] (by decide) (by decide) (by decide)).1)
    (by decide),
   Eq.trans
    ((convert_if_ite_format "Int" (.compare (.name "a") [.gt] [.num 0])
      [.ret (some (.num 1))] [] "(> a 0)" ["1"] []
      (by decide) (by decide) (by decide)).2 rfl)
    (by decide)⟩

/-- Claim C6 (confirmed): a `Name` translates to `true` (resp. `false`)
exactly when its identifier case-insensitively equals that word, and to
itself verbatim otherwise. -/
theorem convert_name_true_false (rt s : String) :
    (pyLower s = "true" → convert rt (.name s) = some "true") ∧
    (pyLower s = "false" → convert rt (.name s) = some "false") ∧
    (pyLower s ≠ "true" → pyLower s ≠ "false" → convert rt (.name s) = some s) := by
  refine ⟨fun h => ?_, fun h => ?_, fun h1 h2 => ?_⟩
  · simp [convert, h]
  · simp [convert, h]
  · simp [convert, h1, h2]

/-- Witness for C6: `TRUE` and `False` are recognized case-insensitively,
while `trueValue` — which merely contains "true" — is kept verbatim. -/
theorem convert_name_true_false_witness :
    convert "Int" (.name "TRUE") = some "true" ∧
    convert "Int" (.name "False") = some "false" ∧
    convert "Int" (.name "trueValue") = some "trueValue" :=
  ⟨(convert_name_true_false "Int" "TRUE").1 (by decide),
   (convert_name_true_false "Int" "False").2.1 (by decide),
   (convert_name_true_false "Int" "trueValue").2.2 (by decide) (by decide)⟩

/-- Claim C7 (confirmed): a node of a kind outside the recognized set
makes `convert` return the sentinel string `UNKNOWN_TYPE_<kind>`, which
embeds the kind's literal class name — it neither drops the construct
silently nor aborts. -/
theorem convert_unknown_kind_sentinel (rt kind : String) :
    convert rt (.other kind) = some ("UNKNOWN_TYPE_" ++ kind) := rfl

/-- Claim C9 (confirmed): `convert` applied to the absent node (`None`)
returns the empty string rather than raising. -/
theorem convert_none_is_empty_string (rt : String) :
    convertOpt rt none = some "" := rfl

/-- Claim C10 (confirmed): a `NameConstant` translates to Python's
`str(value)` — the capitalized `True`, `False` or `None` — never to the
lowercase SMT literals. -/
theorem convert_nameConstant_capitalized (rt : String) :
    (∀ v : PyConst, convert rt (.nameConstant v) = some v.str) ∧
    convert rt (.nameConstant .pyTrue) = some "True" ∧
    convert rt (.nameConstant .pyFalse) = some "False" ∧
    convert rt (.nameConstant .pyNone) = some "None" ∧
    convert rt (.nameConstant .pyTrue) ≠ some "true" ∧
    convert rt (.nameConstant .pyFalse) ≠ some "false" := by
  refine ⟨fun v => rfl, rfl, rfl, rfl, fun h => ?_, fun h => ?_⟩
  · exact absurd (Option.some.inj h) (by decide)
  · exact absurd (Option.some.inj h) (by decide)
